import Mathlib

/-!
Shallow embedding of the hub server core of the `namesystem/registrar`
repository (`src/hub/src/server/server.ts` and the utility layer in
`src/hub/src/server/ProofChecker.ts`), together with theorems settling the
behavioural claims about scope checking, revocation, upload size
enforcement, URL rewriting, the keyed single-flight lock, delete/list
handling, unit conversion, and the social-proof gate.

Conventions of the embedding:
- JavaScript exceptions are modelled with `Except HubError`; error messages
  carried by the JS error objects are elided (no claim depends on them).
- Async control flow is modelled by explicit sequencing: each handler is a
  pure function from its inputs (including driver state) to a result.
- Byte streams are modelled as lists of chunk sizes (each entry the byte
  length of one chunk).
- Nondeterministic inputs of the source (`Date.now()`, the `nanoid` random
  generator) are passed in explicitly (`now : Nat`, a `seed` function).
-/

namespace Registrar

/-- Error categories raised by the hub core (`errors.ts`); the message
strings carried by the JS error objects are elided. -/
inductive HubError
  | validationError
  | payloadTooLargeError
  | doesNotExist
  | notEnoughProofError
  deriving DecidableEq, Repr

/-- Result of `getAuthenticationScopes`: six lists of paths keyed by action
kind (`authentication.ts`, consumed by `server.ts`). -/
structure AuthScopeValues where
  writePrefixes : List String
  writePaths : List String
  deletePrefixes : List String
  deletePaths : List String
  writeArchivalPrefixes : List String
  writeArchivalPaths : List String
  deriving DecidableEq, Repr

/-- JS `String.prototype.startsWith(p)` as used throughout server.ts,
evaluated on the underlying character list (Lean's builtin
`String.startsWith` does not reduce inside the kernel; on strings the two
agree). -/
def jsStartsWith (s p : String) : Bool :=
  p.data.isPrefixOf s.data

/-- JS `String.prototype.endsWith(p)` on the underlying character list. -/
def jsEndsWith (s p : String) : Bool :=
  p.data.isSuffixOf s.data

/-- JS truthiness of an optional string — `!!x` and `if (x)`: `undefined`,
`null` and the empty string are all falsy.  Used for the `!!find(...)` scope
matches (server.ts lines 204-213, 146-155 and 301-310, where a found
empty-string entry does not count as a match) and for the page-cursor guard
of the list handler (server.ts line 94). -/
def jsTruthy (o : Option String) : Bool :=
  match o with
  | none => false
  | some s => s ≠ ""

/-- `HubServer.isArchivalRestricted` (server.ts lines 292-294). -/
def isArchivalRestricted (scopes : AuthScopeValues) : Bool :=
  scopes.writeArchivalPaths.length > 0 || scopes.writeArchivalPrefixes.length > 0

/-- `HubServer.checkArchivalRestrictions` (server.ts lines 296-314): when any
archival scope is present the request path must match an archival prefix
(`path.startsWith(p)`) or equal an archival path; otherwise a
`ValidationError` is thrown.  The source computes each match as
`!!list.find(...)`, so the found entry itself must be truthy: a found
empty-string entry does not authorize.  Returns whether the request is
archival. -/
def checkArchivalRestrictions (address path : String) (scopes : AuthScopeValues) :
    Except HubError Bool :=
  if isArchivalRestricted scopes then
    let m1 := jsTruthy (scopes.writeArchivalPrefixes.find? (fun p => jsStartsWith path p))
    let m2 := m1 || jsTruthy (scopes.writeArchivalPaths.find? (fun p => path == p))
    if !m2 then
      Except.error HubError.validationError
    else
      Except.ok true
  else
    Except.ok false

/-- The prefix/path matching block that `server.ts` repeats verbatim for the
write-kind lists (lines 201-215) and the delete-kind lists (lines 143-157):
when the two lists restrict the request, the path must start with some entry
of `prefixes` or equal some entry of `paths`, else `ValidationError`; the
archival flag computed earlier is passed through on success.  Each match is
the source's `!!list.find(...)`: the JS truthiness of the found entry, so a
found empty-string entry does not authorize. -/
def scopeMatchGate (path : String) (prefixes paths : List String)
    (isArchival : Bool) : Except HubError Bool :=
  if prefixes.length > 0 || paths.length > 0 then
    let m1 := jsTruthy (prefixes.find? (fun p => jsStartsWith path p))
    let m2 := m1 || jsTruthy (paths.find? (fun p => path == p))
    if !m2 then
      Except.error HubError.validationError
    else
      Except.ok isArchival
  else
    Except.ok isArchival

/-- The scope gate of `HubServer.handleRequest` (server.ts lines 198-215):
`checkArchivalRestrictions` followed by the write prefix/path match; a write
restricted by write-kind scopes that matches no prefix and no exact path
throws `ValidationError`.  Returns whether the write is archival. -/
def handleRequestScopeCheck (address path : String) (scopes : AuthScopeValues) :
    Except HubError Bool :=
  match checkArchivalRestrictions address path scopes with
  | Except.error e => Except.error e
  | Except.ok isArchival =>
    scopeMatchGate path scopes.writePrefixes scopes.writePaths isArchival

/-- The delete scope gate of `HubServer.handleDelete` (server.ts lines
140-157): `checkArchivalRestrictions` followed by the delete prefix/path
match. -/
def handleDeleteScopeCheck (address path : String) (scopes : AuthScopeValues) :
    Except HubError Bool :=
  match checkArchivalRestrictions address path scopes with
  | Except.error e => Except.error e
  | Except.ok isArchival =>
    scopeMatchGate path scopes.deletePrefixes scopes.deletePaths isArchival

/-- Generic success predicate for one prefix/path scope family under the
source's `!!find(...)` truthiness: the family is empty (unrestricted), or
the FIRST prefix-kind entry that is a prefix of the path is non-empty, or
the path is non-empty and equals some path-kind entry (every entry found by
the equality search is the path itself, so only the path's own truthiness
matters there). -/
def MatchOk (path : String) (prefixes paths : List String) : Prop :=
  (prefixes = [] ∧ paths = []) ∨
    (∃ s, prefixes.find? (fun p => jsStartsWith path p) = some s ∧ s ≠ "") ∨
    (path ∈ paths ∧ path ≠ "")

/-- Success of the archival overlay, stated as in the spec. -/
def ArchivalMatchOk (path : String) (scopes : AuthScopeValues) : Prop :=
  MatchOk path scopes.writeArchivalPrefixes scopes.writeArchivalPaths

/-- Success of the write-kind scope match, stated as in the spec. -/
def WriteMatchOk (path : String) (scopes : AuthScopeValues) : Prop :=
  MatchOk path scopes.writePrefixes scopes.writePaths

instance findTruthyDecidable (o : Option String) :
    Decidable (∃ s, o = some s ∧ s ≠ "") :=
  match o with
  | none => isFalse (by simp)
  | some s =>
    if h : s = "" then isFalse (by simp [h]) else isTrue ⟨s, rfl, h⟩

instance matchOkDecidable (path : String) (prefixes paths : List String) :
    Decidable (MatchOk path prefixes paths) := by
  unfold MatchOk
  infer_instance

instance writeMatchOkDecidable (path : String) (scopes : AuthScopeValues) :
    Decidable (WriteMatchOk path scopes) := by
  unfold WriteMatchOk
  infer_instance

instance archivalMatchOkDecidable (path : String) (scopes : AuthScopeValues) :
    Decidable (ArchivalMatchOk path scopes) := by
  unfold ArchivalMatchOk
  infer_instance

/-- Whether an `Except` computation succeeded. -/
def exceptOk {ε α : Type} : Except ε α → Bool
  | Except.ok _ => true
  | Except.error _ => false

/-- Modelled from the spec: the revocation-clock state kept by
`AuthTimestampCache` (`revocations.ts` is not among the sources).  Spec 4.3
describes a per-principal unix-millis value defaulting to 0 when no
revocation entry exists; the LRU cache plus driver-backed persistence is
collapsed into a total map from principal to value. -/
def RevocationClock := String → Nat

/-- Modelled from the spec: `AuthTimestampCache.getAuthTimestamp` (spec 4.3
`get`): the stored value, with 0 for principals that never bumped. -/
def getAuthTimestamp (clock : RevocationClock) (address : String) : Nat :=
  clock address

/-- Modelled from the spec: `AuthTimestampCache.setAuthTimestamp` (spec 4.3
`set`): require `ts ≥ current`; a lower value is silently ignored, so the
stored value becomes the max of the old value and `ts`. -/
def setAuthTimestamp (clock : RevocationClock) (address : String) (ts : Nat) :
    RevocationClock :=
  fun a => if a = address then max (clock a) ts else clock a

/-- Modelled from the spec: the revocation comparison of
`validateAuthorizationHeader` (`authentication.ts` is not among the
sources; spec 4.2 step 7): when a revocation-clock value is supplied by the
caller, a token whose `iat` is strictly less than it is rejected with
`ValidationError`; when the caller supplies none, no restriction applies. -/
def checkOldestValidTokenTimestamp (iat : Nat)
    (oldestValidTokenTimestamp : Option Nat) : Except HubError Unit :=
  match oldestValidTokenTimestamp with
  | none => Except.ok ()
  | some t =>
    if iat < t then Except.error HubError.validationError else Except.ok ()

/-- `HubServer.validate` (server.ts lines 48-59): run
`validateAuthorizationHeader` (its signature/association/hub-URL checks are
abstracted into `otherChecksOk`, its revocation step modelled by
`checkOldestValidTokenTimestamp`), then enforce the writer whitelist on the
signing address. -/
def validate (iat : Nat) (otherChecksOk : Bool) (signingAddress : String)
    (whitelist : Option (List String))
    (oldestValidTokenTimestamp : Option Nat) : Except HubError Unit :=
  if !otherChecksOk then
    Except.error HubError.validationError
  else
    match checkOldestValidTokenTimestamp iat oldestValidTokenTimestamp with
    | Except.error e => Except.error e
    | Except.ok _ =>
      match whitelist with
      | none => Except.ok ()
      | some wl =>
        if wl.contains signingAddress then Except.ok ()
        else Except.error HubError.validationError

/-- `HubServer.handleAuthBump` (server.ts lines 41-44): validate the caller
WITHOUT passing any `oldestValidTokenTimestamp` (the call site
`this.validate(address, requestHeaders)` omits the third argument), then
bump the principal's revocation clock. -/
def handleAuthBump (clock : RevocationClock) (address : String)
    (oldestValidTimestamp : Nat) (iat : Nat) (otherChecksOk : Bool)
    (whitelist : Option (List String)) : Except HubError RevocationClock :=
  match validate iat otherChecksOk address whitelist none with
  | Except.error e => Except.error e
  | Except.ok _ =>
    Except.ok (setAuthTimestamp clock address oldestValidTimestamp)

/-- The authentication prelude shared by `handleListFiles` (server.ts lines
65-69), `handleDelete` (lines 136-137) and `handleRequest` (lines 189-190):
fetch the principal's revocation timestamp from the cache and validate the
token against it. -/
def authenticatedPrelude (clock : RevocationClock) (address : String)
    (iat : Nat) (otherChecksOk : Bool) (whitelist : Option (List String)) :
    Except HubError Unit :=
  validate iat otherChecksOk address whitelist
    (some (getAuthTimestamp clock address))

/-- `megabytesToBytes` (utils segment of ProofChecker.ts, lines 392-394). -/
def megabytesToBytes (megabytes : ℚ) : ℚ :=
  megabytes * 1024 * 1024

/-- JS `x.toFixed(decimals)` followed by `Number.parseFloat`: round to
`decimals` decimal places.  The inputs reaching this helper are byte counts
(integers below 2^53), for which both the float arithmetic and the decimal
round-trip are exact, so the rational model is faithful. -/
def roundToDecimals (x : ℚ) (decimals : Nat) : ℚ :=
  ((round (x * 10 ^ decimals) : ℤ) : ℚ) / 10 ^ decimals

/-- `bytesToMegabytes` (utils segment lines 396-398): note the source
expression divides by `1024 / 1024`. -/
def bytesToMegabytes (bytes : ℚ) (decimals : Nat) : ℚ :=
  roundToDecimals (bytes / (1024 / 1024)) decimals

/-- `ProofChecker` constructor (ProofChecker.ts lines 13-19): a missing
proofs config yields `proofsRequired = 0`. -/
def proofsRequiredOfConfig (proofsConfig : Option Nat) : Nat :=
  match proofsConfig with
  | none => 0
  | some n => n

/-- Outcome of the external profile fetch plus social-proof validation
performed by `checkProofs` (ProofChecker.ts lines 42-50): the
`fetchProfile`/`validateProofs` collaborators either raise (network or
verification failure) or produce some number of valid proofs. -/
inductive ProofFetchOutcome
  | fetchError
  | validProofCount (n : Nat)
  deriving DecidableEq, Repr

/-- `ProofChecker.validEnough` (ProofChecker.ts lines 32-35). -/
def validEnough (proofsRequired validProofsCount : Nat) : Bool :=
  validProofsCount ≥ proofsRequired

/-- `ProofChecker.checkProofs` (ProofChecker.ts lines 37-57).  The second
component records whether the profile fetch and proof validation were
performed at all. -/
def checkProofs (proofsRequired : Nat) (filename : String)
    (outcome : ProofFetchOutcome) : Except HubError Bool × Bool :=
  if proofsRequired == 0 || jsEndsWith filename "/profile.json" then
    (Except.ok true, false)
  else
    match outcome with
    | ProofFetchOutcome.fetchError =>
      (Except.error HubError.notEnoughProofError, true)
    | ProofFetchOutcome.validProofCount n =>
      if validEnough proofsRequired n then
        (Except.ok true, true)
      else
        (Except.error HubError.notEnoughProofError, true)

/-- Observable outcome of the synchronous part of
`AsyncMutexScope.tryAcquire` (utils segment lines 506-532): whether `true`
was returned (mutex acquired), whether `spawnOwner` was invoked, the
contents of the `_opened` set at the instant of invocation, the set after
the synchronous part finishes, and whether a synchronous error was
re-raised. -/
structure TryAcquireResult where
  acquired : Bool
  invoked : Bool
  openedAtInvoke : Option (List String)
  openedAfter : List String
  raised : Bool
  deriving DecidableEq, Repr

/-- `AsyncMutexScope.tryAcquire`: the `_opened` set is modelled as a
duplicate-free list; `spawnOwner` is modelled by the one synchronous
behaviour it can exhibit (throw before returning a promise, or return one).
The source inserts the key BEFORE invoking `spawnOwner`, removes it and
re-raises if `spawnOwner` throws synchronously, and otherwise leaves it held
with a `finally` registered on the returned promise. -/
def tryAcquire (opened : List String) (id : String) (spawnThrows : Bool) :
    TryAcquireResult :=
  if opened.contains id then
    ⟨false, false, none, opened, false⟩
  else
    let openedLocked := id :: opened
    if spawnThrows then
      ⟨false, true, some openedLocked, openedLocked.erase id, true⟩
    else
      ⟨true, true, some openedLocked, openedLocked, false⟩

/-- The `finally` handler attached to the owner promise (utils segment lines
521-523): when the promise settles — resolution and rejection alike, the
`resolved` flag is ignored — the key is deleted from the set. -/
def releaseOnSettle (opened : List String) (id : String) (resolved : Bool) :
    List String :=
  opened.erase id

/-- `HubServer.getReadURLPrefix` (server.ts lines 104-110): the configured
`readURL` when truthy (`if (this.readURL)` — a missing or empty-string
configuration falls back), else the driver's native prefix. -/
def getReadURLPrefix (configReadURL : Option String)
    (driverNativeReadURL : String) : String :=
  match configReadURL with
  | some u => if u != "" then u else driverNativeReadURL
  | none => driverNativeReadURL

/-- The read-URL rewrite at the end of `HubServer.handleRequest` (server.ts
lines 283-289): when the hub's read prefix differs from the driver's and the
driver-returned URL starts with the driver prefix, the driver prefix is
stripped (`url.slice(driverPrefix.length)`) and the hub prefix prepended;
otherwise the URL is returned unchanged.  Slice and concatenation are
modelled on the character list. -/
def rewriteReadURL (readURLPrefix driverPrefix url : String) : String :=
  if readURLPrefix != driverPrefix && jsStartsWith url driverPrefix then
    String.mk (readURLPrefix.data ++ url.data.drop driverPrefix.length)
  else
    url

/-- A driver-side object store: per `storageTopLevel` (principal) and path,
the stored object's chunk list (`none` = no object). -/
def Store := String → String → Option (List Nat)

/-- Driver operations performed during a request, in order. -/
inductive DriverCall
  | renameCall (storageTopLevel path newPath : String)
  | writeCall (storageTopLevel path : String)
  | deleteCall (storageTopLevel path : String)
  deriving DecidableEq, Repr

/-- Modelled from the spec: `performRename` (spec 4.1; the driver
implementations are not among the sources): a move that fails with
`DoesNotExist` when the source is absent; destination overwrite is
permitted. -/
def performRename (store : Store) (storageTopLevel path newPath : String) :
    Except HubError Store :=
  match store storageTopLevel path with
  | none => Except.error HubError.doesNotExist
  | some content =>
    Except.ok (fun tl p =>
      if tl = storageTopLevel ∧ p = newPath then some content
      else if tl = storageTopLevel ∧ p = path then none
      else store tl p)

/-- Modelled from the spec: `performDelete` (spec 4.1): fails with
`DoesNotExist` when the object is absent. -/
def performDelete (store : Store) (storageTopLevel path : String) :
    Except HubError Store :=
  match store storageTopLevel path with
  | none => Except.error HubError.doesNotExist
  | some _ =>
    Except.ok (fun tl p =>
      if tl = storageTopLevel ∧ p = path then none else store tl p)

/-- The recursion of `monitorStreamProgress` (utils segment lines 453-487)
composed with the progress callback installed by `handleRequest` (server.ts
lines 261-275): each chunk increments `monitoredContentSize` and the
callback compares the running total against the limit, destroying the
source stream and throwing `PayloadTooLargeError` on overshoot. -/
def monitoredUploadGo (maxContentLength monitoredContentSize : Nat) :
    List Nat → Except HubError Nat × Bool
  | [] => (Except.ok monitoredContentSize, false)
  | chunk :: rest =>
    let total := monitoredContentSize + chunk
    if total > maxContentLength then
      (Except.error HubError.payloadTooLargeError, true)
    else
      monitoredUploadGo maxContentLength total rest

/-- The monitored pass-through of `handleRequest`: returns the total bytes
forwarded on success; the Bool records whether the source stream was
destroyed by the size callback. -/
def monitoredUpload (maxContentLength : Nat) (chunks : List Nat) :
    Except HubError Nat × Bool :=
  monitoredUploadGo maxContentLength 0 chunks

/-- Modelled from the spec: `performWrite` (spec 4.1) consuming the
monitored pass-through: on success the object is stored at the target key;
on a mid-stream error the driver "must not leave a partially-readable
object at `path`", so no object is stored.  The Bool records whether the
source stream was destroyed. -/
def performWriteMonitored (store : Store) (storageTopLevel path : String)
    (maxContentLength : Nat) (chunks : List Nat) :
    Except HubError Store × Bool :=
  match monitoredUpload maxContentLength chunks with
  | (Except.ok _, destroyed) =>
    (Except.ok (fun tl p =>
      if tl = storageTopLevel ∧ p = path then some chunks else store tl p),
     destroyed)
  | (Except.error e, destroyed) => (Except.error e, destroyed)

/-- `Number.isFinite(parseInt(header)) && parsed > 0` (server.ts line 221):
the header is modelled by its `parseInt` result (`none` = header missing or
unparseable, i.e. `NaN`). -/
def isLengthFinite (contentLengthBytes : Option Int) : Bool :=
  match contentLengthBytes with
  | none => false
  | some n => n > 0

/-- The declared-length pre-check (server.ts lines 223-229): a finite,
strictly positive declared content length exceeding the configured maximum
fails immediately with `PayloadTooLargeError`. -/
def contentLengthPrecheck (contentLengthBytes : Option Int)
    (maxFileUploadSizeBytes : Nat) : Except HubError Unit :=
  match contentLengthBytes with
  | none => Except.ok ()
  | some n =>
    if isLengthFinite (some n) && n > (maxFileUploadSizeBytes : Int) then
      Except.error HubError.payloadTooLargeError
    else
      Except.ok ()

/-- The effective in-flight limit (server.ts lines 255-258): the declared
content length when finite and strictly positive, else the configured
maximum. -/
def effectiveMaxContentLength (contentLengthBytes : Option Int)
    (maxFileUploadSizeBytes : Nat) : Nat :=
  match contentLengthBytes with
  | some n => if n > 0 then n.toNat else maxFileUploadSizeBytes
  | none => maxFileUploadSizeBytes

/-- The 62-character alphabet handed to `nanoid` (utils segment line 363). -/
def idAlphabet : String :=
  "0123456789ABCDEFGHIJKLMNOPQRSTUVWXYZabcdefghijklmnopqrstuvwxyz"

/-- Model of the external `nanoid(alphabet, size)` generator used by
`generateUniqueID`: `size` characters drawn from `alphabet`, the draws
driven by a seed function standing for the randomness source. -/
def nanoid (alphabet : List Char) (size : Nat) (seed : Nat → Nat) : List Char :=
  (List.range size).map (fun i => alphabet.getD (seed i % alphabet.length) ' ')

/-- `generateUniqueID` (utils segment lines 368-371): a random 10-character
string over `idAlphabet`. -/
def generateUniqueID (seed : Nat → Nat) : String :=
  String.mk (nanoid idAlphabet.data 10 seed)

/-- `HubServer.getFileName` (server.ts lines 112-116): the component after
the last `/`; the split is modelled on the character list. -/
def getFileName (filePath : String) : String :=
  String.mk ((filePath.data.splitOn '/').getLast!)

/-- `HubServer.getHistoricalFileName` (server.ts lines 118-124):
`<dirPart>.history.<unixMillis>.<uniqueID>.<fileName>` where `dirPart` is
the original path with the filename component cut off the end. -/
def getHistoricalFileName (now : Nat) (seed : Nat → Nat) (filePath : String) :
    String :=
  let fileName := getFileName filePath
  let filePathPart :=
    String.mk (filePath.data.take (filePath.length - fileName.length))
  filePathPart ++ ".history." ++ Nat.repr now ++ "." ++
    generateUniqueID seed ++ "." ++ fileName

/-- `HubServer.isHistoricalFile` (server.ts lines 126-130): the filename
component starts with `.history.`. -/
def isHistoricalFile (filePath : String) : Bool :=
  jsStartsWith (getFileName filePath) ".history."

/-- `HubServer.handleDelete` (server.ts lines 132-177): auth prelude, delete
scope gate, social-proof check, then — when archival scopes apply — a
rename of the path to a freshly minted historical name, or — otherwise — a
direct delete.  Driver errors (`DoesNotExist` included) are surfaced.
Returns the resulting store along with the driver calls performed. -/
def handleDelete (clock : RevocationClock) (iat : Nat) (otherChecksOk : Bool)
    (whitelist : Option (List String)) (address path : String)
    (scopes : AuthScopeValues) (proofsRequired : Nat)
    (outcome : ProofFetchOutcome) (store : Store) (now : Nat)
    (seed : Nat → Nat) : Except HubError Store × List DriverCall :=
  match authenticatedPrelude clock address iat otherChecksOk whitelist with
  | Except.error e => (Except.error e, [])
  | Except.ok _ =>
    match handleDeleteScopeCheck address path scopes with
    | Except.error e => (Except.error e, [])
    | Except.ok isArchival =>
      match (checkProofs proofsRequired path outcome).1 with
      | Except.error e => (Except.error e, [])
      | Except.ok _ =>
        if isArchival then
          let historicalPath := getHistoricalFileName now seed path
          (performRename store address path historicalPath,
           [DriverCall.renameCall address path historicalPath])
        else
          (performDelete store address path,
           [DriverCall.deleteCall address path])

/-- Outcome of `HubServer.handleRequest`: the returned read URL or the
raised error, the driver calls performed, the resulting store, and whether
the source stream was destroyed mid-flight. -/
structure HandleRequestResult where
  result : Except HubError String
  calls : List DriverCall
  finalStore : Store
  sourceDestroyed : Bool

/-- `HubServer.handleRequest` (server.ts lines 179-290): auth prelude, write
scope gate, social-proof check, declared content-length pre-check, optional
archival rename (with `DoesNotExist` swallowed), monitored streaming write,
and read-URL rewrite.  The driver's returned URL is modelled as
`<driverReadURLPrefix><address>/<path>`. -/
def handleRequest (clock : RevocationClock) (iat : Nat) (otherChecksOk : Bool)
    (whitelist : Option (List String)) (address path : String)
    (scopes : AuthScopeValues) (proofsRequired : Nat)
    (outcome : ProofFetchOutcome) (contentLengthBytes : Option Int)
    (maxFileUploadSizeBytes : Nat) (chunks : List Nat) (store : Store)
    (now : Nat) (seed : Nat → Nat) (configReadURL : Option String)
    (driverReadURLPrefix : String) : HandleRequestResult :=
  match authenticatedPrelude clock address iat otherChecksOk whitelist with
  | Except.error e => ⟨Except.error e, [], store, false⟩
  | Except.ok _ =>
    match handleRequestScopeCheck address path scopes with
    | Except.error e => ⟨Except.error e, [], store, false⟩
    | Except.ok isArchival =>
      match (checkProofs proofsRequired path outcome).1 with
      | Except.error e => ⟨Except.error e, [], store, false⟩
      | Except.ok _ =>
        match contentLengthPrecheck contentLengthBytes maxFileUploadSizeBytes with
        | Except.error e => ⟨Except.error e, [], store, false⟩
        | Except.ok _ =>
          let historicalPath := getHistoricalFileName now seed path
          let renameStage : Except HubError (Store × List DriverCall) :=
            if isArchival then
              match performRename store address path historicalPath with
              | Except.error HubError.doesNotExist =>
                Except.ok (store, [DriverCall.renameCall address path historicalPath])
              | Except.error e => Except.error e
              | Except.ok store1 =>
                Except.ok (store1, [DriverCall.renameCall address path historicalPath])
            else
              Except.ok (store, [])
          match renameStage with
          | Except.error e => ⟨Except.error e, [], store, false⟩
          | Except.ok (store1, calls1) =>
            let maxContentLength :=
              effectiveMaxContentLength contentLengthBytes maxFileUploadSizeBytes
            match performWriteMonitored store1 address path maxContentLength chunks with
            | (Except.error e, destroyed) =>
              ⟨Except.error e, calls1 ++ [DriverCall.writeCall address path],
               store1, destroyed⟩
            | (Except.ok store2, destroyed) =>
              let readURL := driverReadURLPrefix ++ address ++ "/" ++ path
              let rewritten := rewriteReadURL
                (getReadURLPrefix configReadURL driverReadURLPrefix)
                driverReadURLPrefix readURL
              ⟨Except.ok rewritten, calls1 ++ [DriverCall.writeCall address path],
               store2, destroyed⟩

/-- One page returned by `handleListFiles`: the TS entries array is
`(string | null)[]`, modelled as `Option String` entries (`none` is the
null sentinel), plus the opaque page cursor. -/
structure ListFilesResult where
  entries : List (Option String)
  page : Option String
  deriving DecidableEq, Repr

/-- `HubServer.handleListFiles` (server.ts lines 61-102): auth prelude with
no path-scope gate; the driver page (entries plus cursor) for the requested
cursor is an input.  When archival scopes apply and the page is non-empty,
historical entries are filtered out, and if that empties a page whose
cursor is truthy a single `null` marker entry is pushed.  The `stat`
variant differs only in filtering on each entry's `name` field. -/
def handleListFiles (clock : RevocationClock) (iat : Nat)
    (otherChecksOk : Bool) (whitelist : Option (List String))
    (address : String) (scopes : AuthScopeValues)
    (driverEntries : List String) (driverPage : Option String) :
    Except HubError ListFilesResult :=
  match authenticatedPrelude clock address iat otherChecksOk whitelist with
  | Except.error e => Except.error e
  | Except.ok _ =>
    if isArchivalRestricted scopes && driverEntries.length > 0 then
      let filtered := driverEntries.filter (fun entry => !isHistoricalFile entry)
      if filtered.length == 0 && jsTruthy driverPage then
        Except.ok ⟨[none], driverPage⟩
      else
        Except.ok ⟨filtered.map some, driverPage⟩
    else
      Except.ok ⟨driverEntries.map some, driverPage⟩

lemma jsTruthy_iff (o : Option String) :
    jsTruthy o = true ↔ ∃ s, o = some s ∧ s ≠ "" := by
  cases o with
  | none => simp [jsTruthy]
  | some s => simp [jsTruthy]

lemma truthy_match_iff (path : String) (prefixes paths : List String) :
    (jsTruthy (prefixes.find? (fun p => jsStartsWith path p)) ||
      jsTruthy (paths.find? (fun p => path == p))) = true ↔
      ((∃ s, prefixes.find? (fun p => jsStartsWith path p) = some s ∧ s ≠ "") ∨
        (path ∈ paths ∧ path ≠ "")) := by
  rw [Bool.or_eq_true, jsTruthy_iff, jsTruthy_iff]
  constructor
  · rintro (h | ⟨s, hfind, hne⟩)
    · exact Or.inl h
    · have hs : s = path := (beq_iff_eq.mp (List.find?_some hfind)).symm
      subst hs
      exact Or.inr ⟨List.mem_of_find?_eq_some hfind, hne⟩
  · rintro (h | ⟨hmem, hne⟩)
    · exact Or.inl h
    · right
      have hsome : (paths.find? (fun p => path == p)).isSome :=
        List.find?_isSome.mpr ⟨path, hmem, beq_self_eq_true path⟩
      obtain ⟨s, hfind⟩ := Option.isSome_iff_exists.mp hsome
      have hs : s = path := (beq_iff_eq.mp (List.find?_some hfind)).symm
      refine ⟨s, hfind, ?_⟩
      rw [hs]
      exact hne

lemma restricted_false_iff (prefixes paths : List String) :
    ((prefixes.length > 0 || paths.length > 0) = false) ↔
      (prefixes = [] ∧ paths = []) := by
  rw [Bool.or_eq_false_iff]
  simp [List.length_eq_zero, Nat.pos_iff_ne_zero]

lemma checkArchivalRestrictions_ok_iff (address path : String)
    (scopes : AuthScopeValues) :
    (∃ b, checkArchivalRestrictions address path scopes = Except.ok b) ↔
      ArchivalMatchOk path scopes := by
  unfold checkArchivalRestrictions isArchivalRestricted ArchivalMatchOk MatchOk
  by_cases hb : (scopes.writeArchivalPaths.length > 0 ||
      scopes.writeArchivalPrefixes.length > 0) = true
  · rw [if_pos hb]
    by_cases hm : (jsTruthy (scopes.writeArchivalPrefixes.find? (fun p => jsStartsWith path p)) ||
        jsTruthy (scopes.writeArchivalPaths.find? (fun p => path == p))) = true
    · simp only [hm, Bool.not_true, Bool.false_eq_true, if_false]
      rw [truthy_match_iff] at hm
      exact ⟨fun _ => Or.inr hm, fun _ => ⟨true, rfl⟩⟩
    · simp only [Bool.not_eq_true] at hm
      simp only [hm, Bool.not_false, if_true]
      constructor
      · rintro ⟨b, hcon⟩
        exact absurd hcon (by simp)
      · rintro (⟨h1, h2⟩ | hrest)
        · exfalso
          rw [h1, h2] at hb
          simp at hb
        · exfalso
          rw [← truthy_match_iff path] at hrest
          rw [hm] at hrest
          exact absurd hrest (by simp)
  · simp only [Bool.not_eq_true] at hb
    rw [hb]
    simp only [Bool.false_eq_true, if_false]
    have := (restricted_false_iff scopes.writeArchivalPaths
      scopes.writeArchivalPrefixes).mp hb
    exact ⟨fun _ => Or.inl ⟨this.2, this.1⟩, fun _ => ⟨false, rfl⟩⟩

lemma checkArchivalRestrictions_ok_val (address path : String)
    (scopes : AuthScopeValues) (b : Bool)
    (h : checkArchivalRestrictions address path scopes = Except.ok b) :
    b = isArchivalRestricted scopes := by
  unfold checkArchivalRestrictions at h
  by_cases hb : isArchivalRestricted scopes = true
  · rw [if_pos hb] at h
    by_cases hm : (jsTruthy (scopes.writeArchivalPrefixes.find? (fun p => jsStartsWith path p)) ||
        jsTruthy (scopes.writeArchivalPaths.find? (fun p => path == p))) = true
    · simp only [hm, Bool.not_true, Bool.false_eq_true, if_false,
        Except.ok.injEq] at h
      rw [← h, hb]
    · simp only [Bool.not_eq_true] at hm
      simp only [hm, Bool.not_false, if_true] at h
      exact absurd h (by simp)
  · simp only [Bool.not_eq_true] at hb
    rw [hb] at h
    simp only [Bool.false_eq_true, if_false, Except.ok.injEq] at h
    rw [← h, hb]

lemma checkArchivalRestrictions_cases (address path : String)
    (scopes : AuthScopeValues) :
    checkArchivalRestrictions address path scopes =
      Except.ok (isArchivalRestricted scopes) ∨
    checkArchivalRestrictions address path scopes =
      Except.error HubError.validationError := by
  unfold checkArchivalRestrictions
  by_cases hb : isArchivalRestricted scopes = true
  · rw [if_pos hb, hb]
    by_cases hm : (jsTruthy (scopes.writeArchivalPrefixes.find? (fun p => jsStartsWith path p)) ||
        jsTruthy (scopes.writeArchivalPaths.find? (fun p => path == p))) = true
    · simp only [hm, Bool.not_true, Bool.false_eq_true, if_false]
      exact Or.inl (by trivial)
    · simp only [Bool.not_eq_true] at hm
      simp only [hm, Bool.not_false, if_true]
      exact Or.inr (by trivial)
  · simp only [Bool.not_eq_true] at hb
    rw [hb]
    simp only [Bool.false_eq_true, if_false]
    exact Or.inl (by trivial)

lemma scopeMatchGate_correct (path : String) (prefixes paths : List String)
    (isA : Bool) :
    ((∃ b, scopeMatchGate path prefixes paths isA = Except.ok b) ↔
      MatchOk path prefixes paths) ∧
    (¬ MatchOk path prefixes paths →
      scopeMatchGate path prefixes paths isA =
        Except.error HubError.validationError) ∧
    (∀ b, scopeMatchGate path prefixes paths isA = Except.ok b → b = isA) := by
  unfold scopeMatchGate MatchOk
  by_cases hw : (prefixes.length > 0 || paths.length > 0) = true
  · rw [if_pos hw]
    by_cases hm : (jsTruthy (prefixes.find? (fun p => jsStartsWith path p)) ||
        jsTruthy (paths.find? (fun p => path == p))) = true
    · simp only [hm, Bool.not_true, Bool.false_eq_true, if_false]
      rw [truthy_match_iff] at hm
      refine ⟨⟨fun _ => Or.inr hm, fun _ => ⟨_, rfl⟩⟩,
        fun hcon => absurd (Or.inr hm) hcon, ?_⟩
      intro b hb
      injection hb with h
      exact h.symm
    · simp only [Bool.not_eq_true] at hm
      simp only [hm, Bool.not_false, if_true]
      refine ⟨⟨?_, ?_⟩, fun _ => by trivial, ?_⟩
      · rintro ⟨b, hcon⟩
        exact absurd hcon (by simp)
      · rintro (⟨h1, h2⟩ | hrest)
        · rw [h1, h2] at hw
          simp at hw
        · exfalso
          rw [← truthy_match_iff path] at hrest
          rw [hm] at hrest
          exact absurd hrest (by simp)
      · intro b hb
        exact absurd hb (by simp)
  · simp only [Bool.not_eq_true] at hw
    rw [hw]
    simp only [Bool.false_eq_true, if_false]
    have hempty := (restricted_false_iff prefixes paths).mp hw
    refine ⟨⟨fun _ => Or.inl hempty, fun _ => ⟨_, rfl⟩⟩,
      fun hcon => absurd (Or.inl hempty) hcon, ?_⟩
    intro b hb
    injection hb with h
    exact h.symm

/-- C1 counterexample: the empty string is a prefix of every path, so the
claim's "some write-prefix scope in S is a prefix of p" holds for the scope
set whose single write-prefix entry is `""`; but the source computes the
match as `!!scopes.writePrefixes.find(...)` (server.ts line 204), the found
`""` is falsy in JS, and the scope check rejects the write with
`ValidationError`. -/
theorem handleRequest_scope_check_empty_entry :
    jsStartsWith "foo/bar" "" = true ∧
    handleRequestScopeCheck "1Lbcfr7sAHTD9CgdQo3HTMTkV8LK4ZnX71" "foo/bar"
        ⟨[""], [], [], [], [], []⟩ =
      Except.error HubError.validationError :=
  ⟨rfl, rfl⟩

/-- C1 amended: a write via `handleRequest` passes its scope check iff the
write-kind scopes are absent or matched under the source's `!!find(...)`
truthiness — the first write-prefix entry that is a prefix of the path is
non-empty, or the path is non-empty and equals some write-path entry — and,
when any archival scope is present, the archival scopes also match the path
in the same truthiness-respecting sense; on success the returned flag
records whether the write is treated as archival, and on failure the error
is `ValidationError`.  (The original unrestricted "some write-prefix in S is
a prefix of p" fails at the empty-string entry, which matches every path
but is falsy.) -/
theorem handleRequest_scope_check_correct (address path : String)
    (scopes : AuthScopeValues) :
    ((∃ b, handleRequestScopeCheck address path scopes = Except.ok b) ↔
      (WriteMatchOk path scopes ∧ ArchivalMatchOk path scopes)) ∧
    (¬ (WriteMatchOk path scopes ∧ ArchivalMatchOk path scopes) →
      handleRequestScopeCheck address path scopes =
        Except.error HubError.validationError) ∧
    (∀ b, handleRequestScopeCheck address path scopes = Except.ok b →
      b = isArchivalRestricted scopes) := by
  rcases checkArchivalRestrictions_cases address path scopes with hok | herr
  · have hEq : handleRequestScopeCheck address path scopes =
        scopeMatchGate path scopes.writePrefixes scopes.writePaths
          (isArchivalRestricted scopes) := by
      unfold handleRequestScopeCheck
      rw [hok]
    have harch : ArchivalMatchOk path scopes :=
      (checkArchivalRestrictions_ok_iff address path scopes).mp ⟨_, hok⟩
    obtain ⟨hiff, herrcase, hval⟩ :=
      scopeMatchGate_correct path scopes.writePrefixes scopes.writePaths
        (isArchivalRestricted scopes)
    rw [hEq]
    unfold WriteMatchOk
    refine ⟨⟨fun h => ⟨hiff.mp h, harch⟩, fun h => hiff.mpr h.1⟩, ?_, hval⟩
    intro hcon
    apply herrcase
    intro hW
    exact hcon ⟨hW, harch⟩
  · have hEq : handleRequestScopeCheck address path scopes =
        Except.error HubError.validationError := by
      unfold handleRequestScopeCheck
      rw [herr]
    have harch : ¬ ArchivalMatchOk path scopes := by
      intro hcon
      obtain ⟨b, hb⟩ :=
        (checkArchivalRestrictions_ok_iff address path scopes).mpr hcon
      rw [herr] at hb
      exact absurd hb (by simp)
    rw [hEq]
    refine ⟨⟨?_, ?_⟩, fun _ => rfl, ?_⟩
    · rintro ⟨b, hcon⟩
      exact absurd hcon (by simp)
    · rintro ⟨_, hcon⟩
      exact absurd hcon harch
    · intro b hb
      exact absurd hb (by simp)

/-- Closed instance of the C1 theorem: principal
`1Lbcfr7sAHTD9CgdQo3HTMTkV8LK4ZnX71` with scope `putFilePrefix foo/` may
write to `foo/bar`. -/
theorem handleRequest_scope_check_correct_witness :
    ∃ b, handleRequestScopeCheck "1Lbcfr7sAHTD9CgdQo3HTMTkV8LK4ZnX71" "foo/bar"
      ⟨["foo/"], [], [], [], [], []⟩ = Except.ok b :=
  (handleRequest_scope_check_correct "1Lbcfr7sAHTD9CgdQo3HTMTkV8LK4ZnX71"
    "foo/bar" ⟨["foo/"], [], [], [], [], []⟩).1.mpr (by decide)

/-- C2 counterexample: with the revocation clock at 1000 for the principal, a
token with `iat = 999` is NOT rejected by `handleAuthBump`: the source calls
`validate` without passing the revocation timestamp, so the revoke-all
endpoint itself never consults the clock, contradicting the claim that every
authenticated operation including `handleAuthBump` rejects such tokens. -/
theorem handleAuthBump_accepts_revoked_token :
    999 < getAuthTimestamp (fun _ => 1000) "1Lbcfr7sAHTD9CgdQo3HTMTkV8LK4ZnX71" ∧
    exceptOk (handleAuthBump (fun _ => 1000) "1Lbcfr7sAHTD9CgdQo3HTMTkV8LK4ZnX71"
      2000 999 true none) = true :=
  ⟨by decide, rfl⟩

/-- C2 amended: on the endpoints that fetch and pass the revocation
timestamp (`handleListFiles`, `handleDelete`, `handleRequest`, via the
shared prelude) a token with `iat` strictly below the principal's clock is
rejected with `ValidationError`; and once `handleAuthBump (P, t)` succeeds,
the clock of `P` is at least `t`, so those endpoints reject every token for
`P` with `iat < t`.  (`handleAuthBump` itself validates without consulting
the clock.) -/
theorem revocation_clock_rejection (clock clock' : RevocationClock)
    (address : String) (iat t bumpIat : Nat) (otherChecksOk bumpOther : Bool)
    (whitelist bumpWl : Option (List String)) :
    (iat < getAuthTimestamp clock address →
      authenticatedPrelude clock address iat otherChecksOk whitelist =
        Except.error HubError.validationError) ∧
    (handleAuthBump clock address t bumpIat bumpOther bumpWl =
        Except.ok clock' →
      iat < t →
      authenticatedPrelude clock' address iat otherChecksOk whitelist =
        Except.error HubError.validationError) := by
  have key : ∀ c : RevocationClock, iat < getAuthTimestamp c address →
      authenticatedPrelude c address iat otherChecksOk whitelist =
        Except.error HubError.validationError := by
    intro c hlt
    unfold authenticatedPrelude validate checkOldestValidTokenTimestamp
    cases otherChecksOk with
    | false => rfl
    | true =>
      simp only [Bool.not_true, Bool.false_eq_true, if_false]
      rw [if_pos hlt]
  refine ⟨key clock, ?_⟩
  intro hbump hlt
  have hclock' : clock' = setAuthTimestamp clock address t := by
    unfold handleAuthBump at hbump
    cases hval : validate bumpIat bumpOther address bumpWl none with
    | error e => rw [hval] at hbump; exact absurd hbump (by simp)
    | ok u =>
      rw [hval] at hbump
      injection hbump with h
      exact h.symm
  apply key clock'
  rw [hclock']
  have hmax : getAuthTimestamp (setAuthTimestamp clock address t) address =
      max (clock address) t := by
    unfold getAuthTimestamp setAuthTimestamp
    simp
  rw [hmax]
  omega

/-- Closed instance of the amended C2 theorem: after `authBump(P, 1000)` a
token with `iat = 999` is rejected by the prelude of the
list/delete/write endpoints. -/
theorem revocation_clock_rejection_witness :
    handleAuthBump (fun _ => 0) "1Lbcfr7sAHTD9CgdQo3HTMTkV8LK4ZnX71"
        1000 5 true none =
      Except.ok (setAuthTimestamp (fun _ => 0)
        "1Lbcfr7sAHTD9CgdQo3HTMTkV8LK4ZnX71" 1000) ∧
    999 < 1000 ∧
    authenticatedPrelude
        (setAuthTimestamp (fun _ => 0) "1Lbcfr7sAHTD9CgdQo3HTMTkV8LK4ZnX71" 1000)
        "1Lbcfr7sAHTD9CgdQo3HTMTkV8LK4ZnX71" 999 true none =
      Except.error HubError.validationError :=
  ⟨rfl, by decide,
    (revocation_clock_rejection (fun _ => 0)
      (setAuthTimestamp (fun _ => 0) "1Lbcfr7sAHTD9CgdQo3HTMTkV8LK4ZnX71" 1000)
      "1Lbcfr7sAHTD9CgdQo3HTMTkV8LK4ZnX71" 999 1000 5 true true none none).2
      rfl (by decide)⟩

/-- C9: `bytesToMegabytes` divides by `1024 / 1024 = 1`, so it returns its
argument rounded to the requested number of decimal places rather than the
argument divided by 2^20; `megabytesToBytes` multiplies by 1024 twice.  At
30 MiB (31457280 bytes) the helper returns 31457280 instead of 30. -/
theorem bytesToMegabytes_divides_by_one (bytes m : ℚ) (decimals : Nat) :
    bytesToMegabytes bytes decimals = roundToDecimals bytes decimals ∧
    megabytesToBytes m = m * 1024 * 1024 ∧
    bytesToMegabytes 31457280 4 = 31457280 ∧
    (31457280 : ℚ) / (1024 * 1024) = 30 := by
  refine ⟨?_, rfl, ?_, by norm_num⟩
  · unfold bytesToMegabytes
    norm_num
  · unfold bytesToMegabytes roundToDecimals
    have h1 : ((31457280 : ℚ) / (1024 / 1024) * 10 ^ 4) =
        ((314572800000 : ℤ) : ℚ) := by norm_num
    rw [h1, round_intCast]
    norm_num

/-- C10: `checkProofs` succeeds without fetching the profile or validating
any proof whenever `proofsRequired = 0` or the path ends with
`/profile.json`; in particular a write to a path ending in `/profile.json`
is never rejected with `NotEnoughProofError`, whatever `proofsRequired` and
whatever the fetch would have produced. -/
theorem checkProofs_profile_bypass (proofsRequired : Nat) (filename : String)
    (outcome : ProofFetchOutcome) :
    ((proofsRequired = 0 ∨ jsEndsWith filename "/profile.json" = true) →
      checkProofs proofsRequired filename outcome = (Except.ok true, false)) ∧
    (jsEndsWith filename "/profile.json" = true →
      (checkProofs proofsRequired filename outcome).1 ≠
        Except.error HubError.notEnoughProofError) := by
  have hmain : (proofsRequired = 0 ∨ jsEndsWith filename "/profile.json" = true) →
      checkProofs proofsRequired filename outcome = (Except.ok true, false) := by
    intro h
    unfold checkProofs
    have hcond : (proofsRequired == 0 || jsEndsWith filename "/profile.json") = true := by
      rcases h with h | h
      · simp [h]
      · simp [h]
    rw [if_pos hcond]
  refine ⟨hmain, fun h => ?_⟩
  rw [hmain (Or.inr h)]
  simp

/-- Closed instance of the C10 theorem: with 5 proofs required and a failing
fetch, a write to `avatar/profile.json` still passes without fetching. -/
theorem checkProofs_profile_bypass_witness :
    checkProofs 5 "avatar/profile.json" ProofFetchOutcome.fetchError =
        (Except.ok true, false) ∧
    (checkProofs 5 "avatar/profile.json" ProofFetchOutcome.fetchError).1 ≠
        Except.error HubError.notEnoughProofError :=
  ⟨(checkProofs_profile_bypass 5 "avatar/profile.json"
      ProofFetchOutcome.fetchError).1 (Or.inr (by decide)),
   (checkProofs_profile_bypass 5 "avatar/profile.json"
      ProofFetchOutcome.fetchError).2 (by decide)⟩

/-- C6: `tryAcquire` on a held key returns `false` without invoking the
function; on a free key it inserts the key before invoking the function (so
a synchronous reentrant `tryAcquire` of the same key returns `false` and
does not invoke its function), returns `true`, and the key is removed when
the promise settles regardless of resolution; a synchronous throw removes
the key and re-raises. -/
theorem tryAcquire_correct (opened : List String) (id : String)
    (spawnThrows : Bool) :
    (opened.contains id = true →
      tryAcquire opened id spawnThrows = ⟨false, false, none, opened, false⟩) ∧
    (opened.contains id = false →
      (tryAcquire opened id spawnThrows).invoked = true ∧
      (tryAcquire opened id spawnThrows).openedAtInvoke = some (id :: opened) ∧
      (∀ s, (tryAcquire (id :: opened) id s).acquired = false ∧
            (tryAcquire (id :: opened) id s).invoked = false) ∧
      (spawnThrows = true →
        (tryAcquire opened id spawnThrows).raised = true ∧
        (tryAcquire opened id spawnThrows).acquired = false ∧
        (tryAcquire opened id spawnThrows).openedAfter.contains id = false) ∧
      (spawnThrows = false →
        (tryAcquire opened id spawnThrows).acquired = true ∧
        (tryAcquire opened id spawnThrows).raised = false ∧
        (tryAcquire opened id spawnThrows).openedAfter = id :: opened ∧
        ∀ resolved,
          (releaseOnSettle (tryAcquire opened id spawnThrows).openedAfter id
            resolved).contains id = false)) := by
  constructor
  · intro h
    unfold tryAcquire
    rw [if_pos h]
  · intro h
    have hreent : ∀ s, (tryAcquire (id :: opened) id s).acquired = false ∧
        (tryAcquire (id :: opened) id s).invoked = false := by
      intro s
      have hc : (id :: opened).contains id = true := by
        simp [List.contains_cons]
      unfold tryAcquire
      rw [if_pos hc]
      exact ⟨rfl, rfl⟩
    have herase : (id :: opened).erase id = opened := List.erase_cons_head id opened
    cases spawnThrows with
    | true =>
      have hEq : tryAcquire opened id true =
          ⟨false, true, some (id :: opened), (id :: opened).erase id, true⟩ := by
        unfold tryAcquire
        rw [if_neg (by simpa using h), if_pos rfl]
      rw [hEq]
      refine ⟨rfl, rfl, hreent, fun _ => ⟨rfl, rfl, ?_⟩, fun hcon => nomatch hcon⟩
      simpa [herase] using h
    | false =>
      have hEq : tryAcquire opened id false =
          ⟨true, true, some (id :: opened), id :: opened, false⟩ := by
        unfold tryAcquire
        rw [if_neg (by simpa using h)]
        rfl
      rw [hEq]
      refine ⟨rfl, rfl, hreent, ?_, ?_⟩
      · intro hcon
        exact nomatch hcon
      · intro _
        refine ⟨rfl, rfl, rfl, ?_⟩
        intro resolved
        unfold releaseOnSettle
        simpa [herase] using h

/-- Closed instance of the C6 theorem at key `obj-1` and an empty held set:
acquisition succeeds, the key is held during the call, and settling
releases it. -/
theorem tryAcquire_correct_witness :
    (tryAcquire [] "obj-1" false).acquired = true ∧
    (tryAcquire ["obj-1"] "obj-1" false).acquired = false ∧
    (releaseOnSettle (tryAcquire [] "obj-1" false).openedAfter "obj-1"
      true).contains "obj-1" = false :=
  ⟨((tryAcquire_correct [] "obj-1" false).2 (by decide)).2.2.2.2 rfl |>.1,
   ((tryAcquire_correct [] "obj-1" false).2 (by decide)).2.2.1 false |>.1,
   ((tryAcquire_correct [] "obj-1" false).2 (by decide)).2.2.2.2 rfl |>.2.2.2 true⟩

/-- C5 counterexample: with hub read prefix `d/r/` and driver prefix `d/`
(the hub prefix extends the driver prefix) the rewrite of `d/x` is `d/r/x`,
but rewriting a second time yields `d/r/r/x`; applying the rewrite twice is
therefore not equal to applying it once for every URL. -/
theorem rewriteReadURL_not_idempotent :
    rewriteReadURL "d/r/" "d/" (rewriteReadURL "d/r/" "d/" "d/x") ≠
      rewriteReadURL "d/r/" "d/" "d/x" := by decide

lemma rewriteReadURL_of_cond_false (r d url : String)
    (h : (r != d && jsStartsWith url d) = false) :
    rewriteReadURL r d url = url := by
  unfold rewriteReadURL
  rw [h]
  simp

/-- C5 amended: the rewrite is idempotent whenever the hub prefix equals the
driver prefix or neither prefix is a prefix of the other (in particular for
every pair of distinct prefixes where one does not textually extend the
other); the unrestricted claim fails as witnessed above. -/
theorem rewriteReadURL_idempotent (r d url : String)
    (h : r = d ∨ (¬ r.data <+: d.data ∧ ¬ d.data <+: r.data)) :
    rewriteReadURL r d (rewriteReadURL r d url) =
      rewriteReadURL r d url := by
  rcases h with heq | ⟨h1, h2⟩
  · have hall : ∀ u, rewriteReadURL r d u = u := by
      intro u
      apply rewriteReadURL_of_cond_false
      have : (r != d) = false := by simp [heq]
      rw [this]
      simp
    rw [hall, hall]
  · by_cases hc : (r != d && jsStartsWith url d) = true
    · have hv : rewriteReadURL r d url =
          String.mk (r.data ++ url.data.drop d.length) := by
        unfold rewriteReadURL
        rw [hc]
        simp
      rw [hv]
      apply rewriteReadURL_of_cond_false
      have hnostart :
          jsStartsWith (String.mk (r.data ++ url.data.drop d.length)) d = false := by
        unfold jsStartsWith
        rw [Bool.eq_false_iff]
        intro hcon
        have hpref : d.data <+: (r.data ++ url.data.drop d.length) :=
          List.isPrefixOf_iff_prefix.mp hcon
        have hr : r.data <+: (r.data ++ url.data.drop d.length) :=
          List.prefix_append _ _
        rcases List.prefix_or_prefix_of_prefix hpref hr with hh | hh
        · exact h2 hh
        · exact h1 hh
      rw [hnostart]
      simp
    · rw [Bool.not_eq_true] at hc
      rw [rewriteReadURL_of_cond_false r d url hc,
        rewriteReadURL_of_cond_false r d url hc]

/-- Closed instance of the amended C5 theorem: with unrelated prefixes `h/`
and `d/`, rewriting `d/a` twice equals rewriting it once. -/
theorem rewriteReadURL_idempotent_witness :
    rewriteReadURL "h/" "d/" (rewriteReadURL "h/" "d/" "d/a") =
      rewriteReadURL "h/" "d/" "d/a" :=
  rewriteReadURL_idempotent "h/" "d/" "d/a" (Or.inr (by decide))

lemma monitoredUploadGo_over (limit : Nat) :
    ∀ (chunks : List Nat) (acc : Nat), acc ≤ limit → acc + chunks.sum > limit →
      monitoredUploadGo limit acc chunks =
        (Except.error HubError.payloadTooLargeError, true) := by
  intro chunks
  induction chunks with
  | nil =>
    intro acc hle hgt
    rw [List.sum_nil] at hgt
    exact absurd hle (by omega)
  | cons c rest ih =>
    intro acc hle hgt
    rw [List.sum_cons] at hgt
    unfold monitoredUploadGo
    by_cases hover : (acc + c > limit)
    · rw [if_pos (by simpa using hover)]
    · rw [if_neg (by simpa using hover)]
      exact ih (acc + c) (by omega) (by omega)

lemma monitoredUploadGo_under (limit : Nat) :
    ∀ (chunks : List Nat) (acc : Nat), acc + chunks.sum ≤ limit →
      monitoredUploadGo limit acc chunks =
        (Except.ok (acc + chunks.sum), false) := by
  intro chunks
  induction chunks with
  | nil =>
    intro acc _
    rw [List.sum_nil]
    rfl
  | cons c rest ih =>
    intro acc hle
    rw [List.sum_cons] at hle ⊢
    unfold monitoredUploadGo
    have hno : ¬ (acc + c > limit) := by omega
    rw [if_neg (by simpa using hno)]
    rw [ih (acc + c) (by omega)]
    have harith : acc + c + rest.sum = acc + (c + rest.sum) := by omega
    rw [harith]

lemma performWriteMonitored_over (store : Store) (tl p : String)
    (limit : Nat) (chunks : List Nat) (hover : chunks.sum > limit) :
    performWriteMonitored store tl p limit chunks =
      (Except.error HubError.payloadTooLargeError, true) := by
  unfold performWriteMonitored monitoredUpload
  rw [monitoredUploadGo_over limit chunks 0 (Nat.zero_le _) (by omega)]

/-- C3 counterexample: for an oversized non-archival write to a path that
already holds an object, the write fails with `PayloadTooLargeError` and
the source stream is destroyed, but the pre-existing object survives at the
target path, refuting the claim's unconditional "no object exists at the
target path afterwards". -/
theorem handleRequest_overwrite_survives_failed_write :
    (handleRequest (fun _ => 0) 0 true none "1HubTest" "foo/bar"
        ⟨[], [], [], [], [], []⟩ 0 ProofFetchOutcome.fetchError none 1 [2]
        (fun tl p => if tl = "1HubTest" ∧ p = "foo/bar" then some [1] else none)
        7 (fun _ => 0) none "driver/").result =
      Except.error HubError.payloadTooLargeError ∧
    (handleRequest (fun _ => 0) 0 true none "1HubTest" "foo/bar"
        ⟨[], [], [], [], [], []⟩ 0 ProofFetchOutcome.fetchError none 1 [2]
        (fun tl p => if tl = "1HubTest" ∧ p = "foo/bar" then some [1] else none)
        7 (fun _ => 0) none "driver/").sourceDestroyed = true ∧
    (handleRequest (fun _ => 0) 0 true none "1HubTest" "foo/bar"
        ⟨[], [], [], [], [], []⟩ 0 ProofFetchOutcome.fetchError none 1 [2]
        (fun tl p => if tl = "1HubTest" ∧ p = "foo/bar" then some [1] else none)
        7 (fun _ => 0) none "driver/").finalStore "1HubTest" "foo/bar" =
      some [1] :=
  ⟨rfl, rfl, rfl⟩

/-- C3 amended: whenever a stream's total byte count exceeds the effective
limit — the declared content length when finite and strictly positive, else
`maxFileUploadSizeBytes` — the monitored write of `handleRequest` fails
with `PayloadTooLargeError`, the source stream is destroyed, and no object
is created at the target path: a path that held no object beforehand holds
none afterwards.  (A pre-existing object can survive the failed overwrite,
as the counterexample shows.) -/
theorem handleRequest_size_enforcement (clock : RevocationClock) (iat : Nat)
    (otherChecksOk : Bool) (whitelist : Option (List String))
    (address path : String) (scopes : AuthScopeValues) (proofsRequired : Nat)
    (outcome : ProofFetchOutcome) (contentLengthBytes : Option Int)
    (maxFileUploadSizeBytes : Nat) (chunks : List Nat) (store : Store)
    (now : Nat) (seed : Nat → Nat) (configReadURL : Option String)
    (driverReadURLPrefix : String) (isArch : Bool)
    (hauth : authenticatedPrelude clock address iat otherChecksOk whitelist =
      Except.ok ())
    (hscope : handleRequestScopeCheck address path scopes = Except.ok isArch)
    (hproof : (checkProofs proofsRequired path outcome).1 = Except.ok true)
    (hpre : contentLengthPrecheck contentLengthBytes maxFileUploadSizeBytes =
      Except.ok ())
    (hfresh : store address path = none)
    (hover : chunks.sum >
      effectiveMaxContentLength contentLengthBytes maxFileUploadSizeBytes) :
    (handleRequest clock iat otherChecksOk whitelist address path scopes
        proofsRequired outcome contentLengthBytes maxFileUploadSizeBytes
        chunks store now seed configReadURL driverReadURLPrefix).result =
      Except.error HubError.payloadTooLargeError ∧
    (handleRequest clock iat otherChecksOk whitelist address path scopes
        proofsRequired outcome contentLengthBytes maxFileUploadSizeBytes
        chunks store now seed configReadURL driverReadURLPrefix).sourceDestroyed
      = true ∧
    (handleRequest clock iat otherChecksOk whitelist address path scopes
        proofsRequired outcome contentLengthBytes maxFileUploadSizeBytes
        chunks store now seed configReadURL driverReadURLPrefix).finalStore
      address path = none := by
  have hren : performRename store address path
      (getHistoricalFileName now seed path) =
      Except.error HubError.doesNotExist := by
    unfold performRename
    rw [hfresh]
  have hwrite := performWriteMonitored_over store address path
    (effectiveMaxContentLength contentLengthBytes maxFileUploadSizeBytes)
    chunks hover
  unfold handleRequest
  rw [hauth, hscope, hproof, hpre]
  cases isArch with
  | true =>
    simp only [hren, hwrite, if_true]
    exact ⟨trivial, trivial, hfresh⟩
  | false =>
    simp only [hwrite, Bool.false_eq_true, if_false]
    exact ⟨trivial, trivial, hfresh⟩

/-- Closed instance of the C3 theorem: a stream of 1000 bytes against a
declared `Content-Length: 10` is destroyed with `PayloadTooLargeError` and
leaves no object. -/
theorem handleRequest_size_enforcement_witness :
    (handleRequest (fun _ => 0) 0 true none "1HubTest" "foo/bar"
        ⟨[], [], [], [], [], []⟩ 0 ProofFetchOutcome.fetchError (some 10)
        31457280 [600, 400] (fun _ _ => none) 7 (fun _ => 0) none
        "driver/").result = Except.error HubError.payloadTooLargeError ∧
    (handleRequest (fun _ => 0) 0 true none "1HubTest" "foo/bar"
        ⟨[], [], [], [], [], []⟩ 0 ProofFetchOutcome.fetchError (some 10)
        31457280 [600, 400] (fun _ _ => none) 7 (fun _ => 0) none
        "driver/").sourceDestroyed = true ∧
    (handleRequest (fun _ => 0) 0 true none "1HubTest" "foo/bar"
        ⟨[], [], [], [], [], []⟩ 0 ProofFetchOutcome.fetchError (some 10)
        31457280 [600, 400] (fun _ _ => none) 7 (fun _ => 0) none
        "driver/").finalStore "1HubTest" "foo/bar" = none :=
  handleRequest_size_enforcement (fun _ => 0) 0 true none "1HubTest"
    "foo/bar" ⟨[], [], [], [], [], []⟩ 0 ProofFetchOutcome.fetchError
    (some 10) 31457280 [600, 400] (fun _ _ => none) 7 (fun _ => 0) none
    "driver/" false rfl rfl rfl rfl rfl (by decide)

/-- C4: a declared Content-Length that parses to a finite, strictly positive
value above `maxFileUploadSizeBytes` makes `handleRequest` fail with
`PayloadTooLargeError` before any driver call (no rename, no write); and a
Content-Length of 0 is not treated as finite by this check. -/
theorem handleRequest_precheck_before_driver (clock : RevocationClock)
    (iat : Nat) (otherChecksOk : Bool) (whitelist : Option (List String))
    (address path : String) (scopes : AuthScopeValues) (proofsRequired : Nat)
    (outcome : ProofFetchOutcome) (n : Int) (maxFileUploadSizeBytes : Nat)
    (chunks : List Nat) (store : Store) (now : Nat) (seed : Nat → Nat)
    (configReadURL : Option String) (driverReadURLPrefix : String)
    (isArch : Bool)
    (hauth : authenticatedPrelude clock address iat otherChecksOk whitelist =
      Except.ok ())
    (hscope : handleRequestScopeCheck address path scopes = Except.ok isArch)
    (hproof : (checkProofs proofsRequired path outcome).1 = Except.ok true)
    (hpos : 0 < n) (hbig : n > (maxFileUploadSizeBytes : Int)) :
    (handleRequest clock iat otherChecksOk whitelist address path scopes
        proofsRequired outcome (some n) maxFileUploadSizeBytes chunks store
        now seed configReadURL driverReadURLPrefix).result =
      Except.error HubError.payloadTooLargeError ∧
    (handleRequest clock iat otherChecksOk whitelist address path scopes
        proofsRequired outcome (some n) maxFileUploadSizeBytes chunks store
        now seed configReadURL driverReadURLPrefix).calls = [] ∧
    (handleRequest clock iat otherChecksOk whitelist address path scopes
        proofsRequired outcome (some n) maxFileUploadSizeBytes chunks store
        now seed configReadURL driverReadURLPrefix).finalStore = store ∧
    isLengthFinite (some 0) = false ∧
    contentLengthPrecheck (some 0) maxFileUploadSizeBytes = Except.ok () := by
  have hpre : contentLengthPrecheck (some n) maxFileUploadSizeBytes =
      Except.error HubError.payloadTooLargeError := by
    have hfin : isLengthFinite (some n) = true := decide_eq_true hpos
    have hcond : (isLengthFinite (some n) &&
        n > (maxFileUploadSizeBytes : Int)) = true := by
      rw [hfin, Bool.true_and]
      exact decide_eq_true hbig
    show (if (isLengthFinite (some n) && n > (maxFileUploadSizeBytes : Int)) = true
        then (Except.error HubError.payloadTooLargeError : Except HubError Unit)
        else Except.ok ()) =
      Except.error HubError.payloadTooLargeError
    rw [if_pos hcond]
  unfold handleRequest
  rw [hauth, hscope, hproof, hpre]
  exact ⟨rfl, rfl, rfl, by decide, rfl⟩

/-- Closed instance of the C4 theorem: `Content-Length: 31457281` against a
30 MiB limit fails before any driver call. -/
theorem handleRequest_precheck_before_driver_witness :
    (handleRequest (fun _ => 0) 0 true none "1HubTest" "foo/bar"
        ⟨[], [], [], [], [], []⟩ 0 ProofFetchOutcome.fetchError
        (some 31457281) 31457280 [1] (fun _ _ => none) 7 (fun _ => 0) none
        "driver/").result = Except.error HubError.payloadTooLargeError ∧
    (handleRequest (fun _ => 0) 0 true none "1HubTest" "foo/bar"
        ⟨[], [], [], [], [], []⟩ 0 ProofFetchOutcome.fetchError
        (some 31457281) 31457280 [1] (fun _ _ => none) 7 (fun _ => 0) none
        "driver/").calls = [] :=
  ⟨(handleRequest_precheck_before_driver (fun _ => 0) 0 true none "1HubTest"
      "foo/bar" ⟨[], [], [], [], [], []⟩ 0 ProofFetchOutcome.fetchError
      31457281 31457280 [1] (fun _ _ => none) 7 (fun _ => 0) none "driver/"
      false rfl rfl rfl (by decide) (by decide)).1,
   (handleRequest_precheck_before_driver (fun _ => 0) 0 true none "1HubTest"
      "foo/bar" ⟨[], [], [], [], [], []⟩ 0 ProofFetchOutcome.fetchError
      31457281 31457280 [1] (fun _ _ => none) 7 (fun _ => 0) none "driver/"
      false rfl rfl rfl (by decide) (by decide)).2.1⟩

lemma idAlphabet_length : idAlphabet.data.length = 62 := by decide

lemma generateUniqueID_length (seed : Nat → Nat) :
    (generateUniqueID seed).length = 10 := by
  show (nanoid idAlphabet.data 10 seed).length = 10
  unfold nanoid
  simp

lemma generateUniqueID_mem_alphabet (seed : Nat → Nat) :
    ∀ c ∈ (generateUniqueID seed).data, c ∈ idAlphabet.data := by
  intro c hc
  have hc' : c ∈ nanoid idAlphabet.data 10 seed := hc
  unfold nanoid at hc'
  simp only [List.mem_map, List.mem_range] at hc'
  obtain ⟨i, _, heq⟩ := hc'
  have hpos : 0 < idAlphabet.data.length := by rw [idAlphabet_length]; omega
  have hlt : seed i % idAlphabet.data.length < idAlphabet.data.length :=
    Nat.mod_lt _ hpos
  rw [List.getD_eq_getElem idAlphabet.data ' ' hlt] at heq
  exact heq ▸ List.getElem_mem hlt

/-- C7: under archival scopes `handleDelete` performs no `performDelete` but
renames the path to `<dirPart>.history.<unixMillis>.<rand10>.<filename>`
with `rand10` ten characters from the 62-character alphanumeric alphabet;
without archival scopes it performs a direct `performDelete`; in both modes
a `DoesNotExist` driver error (absent object) is surfaced. -/
theorem handleDelete_correct (clock : RevocationClock) (iat : Nat)
    (otherChecksOk : Bool) (whitelist : Option (List String))
    (address path : String) (scopes : AuthScopeValues) (proofsRequired : Nat)
    (outcome : ProofFetchOutcome) (store : Store) (now : Nat)
    (seed : Nat → Nat) (isArch : Bool)
    (hauth : authenticatedPrelude clock address iat otherChecksOk whitelist =
      Except.ok ())
    (hscope : handleDeleteScopeCheck address path scopes = Except.ok isArch)
    (hproof : (checkProofs proofsRequired path outcome).1 = Except.ok true) :
    (isArch = true →
      (handleDelete clock iat otherChecksOk whitelist address path scopes
          proofsRequired outcome store now seed).2 =
        [DriverCall.renameCall address path
          (getHistoricalFileName now seed path)] ∧
      (store address path = none →
        (handleDelete clock iat otherChecksOk whitelist address path scopes
            proofsRequired outcome store now seed).1 =
          Except.error HubError.doesNotExist) ∧
      (∀ content, store address path = some content →
        ∃ store2,
          (handleDelete clock iat otherChecksOk whitelist address path scopes
              proofsRequired outcome store now seed).1 = Except.ok store2 ∧
          store2 address (getHistoricalFileName now seed path) =
            some content)) ∧
    (isArch = false →
      (handleDelete clock iat otherChecksOk whitelist address path scopes
          proofsRequired outcome store now seed).2 =
        [DriverCall.deleteCall address path] ∧
      (store address path = none →
        (handleDelete clock iat otherChecksOk whitelist address path scopes
            proofsRequired outcome store now seed).1 =
          Except.error HubError.doesNotExist) ∧
      (∀ content, store address path = some content →
        ∃ store2,
          (handleDelete clock iat otherChecksOk whitelist address path scopes
              proofsRequired outcome store now seed).1 = Except.ok store2 ∧
          store2 address path = none)) ∧
    getHistoricalFileName now seed path =
      String.mk (path.data.take (path.length - (getFileName path).length)) ++
        ".history." ++ Nat.repr now ++ "." ++ generateUniqueID seed ++ "." ++
        getFileName path ∧
    (generateUniqueID seed).length = 10 ∧
    (∀ c ∈ (generateUniqueID seed).data, c ∈ idAlphabet.data) := by
  refine ⟨?_, ?_, rfl, generateUniqueID_length seed,
    generateUniqueID_mem_alphabet seed⟩
  · intro hA
    subst hA
    have hEq : handleDelete clock iat otherChecksOk whitelist address path
        scopes proofsRequired outcome store now seed =
        (performRename store address path (getHistoricalFileName now seed path),
         [DriverCall.renameCall address path
           (getHistoricalFileName now seed path)]) := by
      unfold handleDelete
      rw [hauth, hscope, hproof]
      rfl
    rw [hEq]
    refine ⟨rfl, ?_, ?_⟩
    · intro hnone
      show performRename store address path _ = _
      unfold performRename
      rw [hnone]
    · intro content hsome
      have hrn : performRename store address path
          (getHistoricalFileName now seed path) =
          Except.ok (fun tl p =>
            if tl = address ∧ p = getHistoricalFileName now seed path then
              some content
            else if tl = address ∧ p = path then none
            else store tl p) := by
        unfold performRename
        rw [hsome]
      exact ⟨_, hrn, by simp⟩
  · intro hA
    subst hA
    have hEq : handleDelete clock iat otherChecksOk whitelist address path
        scopes proofsRequired outcome store now seed =
        (performDelete store address path,
         [DriverCall.deleteCall address path]) := by
      unfold handleDelete
      rw [hauth, hscope, hproof]
      rfl
    rw [hEq]
    refine ⟨rfl, ?_, ?_⟩
    · intro hnone
      show performDelete store address path = _
      unfold performDelete
      rw [hnone]
    · intro content hsome
      have hdel : performDelete store address path =
          Except.ok (fun tl p =>
            if tl = address ∧ p = path then none else store tl p) := by
        unfold performDelete
        rw [hsome]
      exact ⟨_, hdel, by simp⟩

/-- Closed instance of the C7 theorem: an archival-scoped delete of a
missing `foo/bar` issues exactly one rename to the historical name and
surfaces `DoesNotExist`. -/
theorem handleDelete_correct_witness :
    (handleDelete (fun _ => 0) 0 true none "1DelTest" "foo/bar"
        ⟨[], [], [], [], [], ["foo/bar"]⟩ 0 ProofFetchOutcome.fetchError
        (fun _ _ => none) 7 (fun _ => 0)).2 =
      [DriverCall.renameCall "1DelTest" "foo/bar"
        (getHistoricalFileName 7 (fun _ => 0) "foo/bar")] ∧
    (handleDelete (fun _ => 0) 0 true none "1DelTest" "foo/bar"
        ⟨[], [], [], [], [], ["foo/bar"]⟩ 0 ProofFetchOutcome.fetchError
        (fun _ _ => none) 7 (fun _ => 0)).1 =
      Except.error HubError.doesNotExist :=
  ⟨((handleDelete_correct (fun _ => 0) 0 true none "1DelTest" "foo/bar"
      ⟨[], [], [], [], [], ["foo/bar"]⟩ 0 ProofFetchOutcome.fetchError
      (fun _ _ => none) 7 (fun _ => 0) true rfl rfl rfl).1 rfl).1,
   ((handleDelete_correct (fun _ => 0) 0 true none "1DelTest" "foo/bar"
      ⟨[], [], [], [], [], ["foo/bar"]⟩ 0 ProofFetchOutcome.fetchError
      (fun _ _ => none) 7 (fun _ => 0) true rfl rfl rfl).1 rfl).2.1 rfl⟩

/-- C8 counterexample: an archival-restricted listing whose driver page
holds only historical entries and carries the non-null cursor `""` returns
an empty entries list WITHOUT the null sentinel — the push is guarded by
the JS truthiness of `listFileResult.page`, and the empty string is falsy —
contradicting the claim that every non-null cursor triggers the sentinel. -/
theorem handleListFiles_empty_string_cursor :
    handleListFiles (fun _ => 0) 0 true none "1ListTest"
        ⟨[], [], [], [], [], ["foo"]⟩ [".history.1.abc.foo"] (some "") =
      Except.ok ⟨[], some ""⟩ ∧
    some "" ≠ (none : Option String) :=
  ⟨rfl, by decide⟩

/-- C8 amended: `handleListFiles` performs no path-scope check (its result
depends only on the archival scope lists, and it cannot fail once the auth
prelude passes); when archival scopes apply, every entry whose filename
component begins with `.history.` is filtered from the returned page and
the others are kept, and a page emptied by the filtering receives exactly
one null sentinel iff its driver cursor is truthy — non-null AND non-empty;
without archival scopes the page is returned unfiltered. -/
theorem handleListFiles_correct (clock : RevocationClock) (iat : Nat)
    (otherChecksOk : Bool) (whitelist : Option (List String))
    (address : String) (scopes scopes2 : AuthScopeValues)
    (driverEntries : List String) (driverPage : Option String)
    (hauth : authenticatedPrelude clock address iat otherChecksOk whitelist =
      Except.ok ()) :
    (scopes2.writeArchivalPrefixes = scopes.writeArchivalPrefixes →
      scopes2.writeArchivalPaths = scopes.writeArchivalPaths →
      handleListFiles clock iat otherChecksOk whitelist address scopes2
          driverEntries driverPage =
        handleListFiles clock iat otherChecksOk whitelist address scopes
          driverEntries driverPage) ∧
    (∃ r, handleListFiles clock iat otherChecksOk whitelist address scopes
        driverEntries driverPage = Except.ok r ∧
      r.page = driverPage ∧
      (isArchivalRestricted scopes = true →
        (∀ s, some s ∈ r.entries → isHistoricalFile s = false) ∧
        (∀ s ∈ driverEntries, isHistoricalFile s = false →
          some s ∈ r.entries) ∧
        (driverEntries ≠ [] →
          driverEntries.filter (fun entry => !isHistoricalFile entry) = [] →
          (jsTruthy driverPage = true → r.entries = [none]) ∧
          (jsTruthy driverPage = false → r.entries = []))) ∧
      (isArchivalRestricted scopes = false →
        r.entries = driverEntries.map some)) := by
  constructor
  · intro h1 h2
    unfold handleListFiles
    rw [hauth]
    have harch : isArchivalRestricted scopes2 = isArchivalRestricted scopes := by
      unfold isArchivalRestricted
      rw [h1, h2]
    rw [harch]
  · by_cases hA : isArchivalRestricted scopes = true
    · cases driverEntries with
      | nil =>
        refine ⟨⟨[], driverPage⟩, ?_, rfl, ?_, ?_⟩
        · unfold handleListFiles
          rw [hauth, hA]
          rfl
        · intro _
          refine ⟨?_, ?_, ?_⟩
          · intro s hs
            simp at hs
          · intro s hs
            simp at hs
          · intro hne
            exact absurd rfl hne
        · intro hcon
          rw [hA] at hcon
          exact absurd hcon (by simp)
      | cons e rest =>
        have key : handleListFiles clock iat otherChecksOk whitelist address
            scopes (e :: rest) driverPage =
            (if ((((e :: rest).filter
                (fun entry => !isHistoricalFile entry)).length == 0 &&
                jsTruthy driverPage) = true) then
              Except.ok (⟨[none], driverPage⟩ : ListFilesResult)
            else
              Except.ok ⟨((e :: rest).filter
                (fun entry => !isHistoricalFile entry)).map some,
                driverPage⟩) := by
          unfold handleListFiles
          rw [hauth, hA]
          dsimp only
          have houter : (true && decide ((e :: rest).length > 0)) = true := by
            simp
          rw [houter, if_pos rfl]
        by_cases hf : ((((e :: rest).filter
            (fun entry => !isHistoricalFile entry)).length == 0 &&
            jsTruthy driverPage) = true)
        · obtain ⟨hflen, htru⟩ := Bool.and_eq_true _ _ |>.mp hf
          have hfempty : (e :: rest).filter
              (fun entry => !isHistoricalFile entry) = [] :=
            List.length_eq_zero.mp (by simpa using hflen)
          refine ⟨⟨[none], driverPage⟩, ?_, rfl, ?_, ?_⟩
          · rw [key, if_pos hf]
          · intro _
            refine ⟨?_, ?_, ?_⟩
            · intro s hs
              simp at hs
            · intro s hs hnh
              exfalso
              have hmem : s ∈ (e :: rest).filter
                  (fun entry => !isHistoricalFile entry) :=
                List.mem_filter.mpr ⟨hs, by rw [hnh]; rfl⟩
              rw [hfempty] at hmem
              simp at hmem
            · intro _ _
              exact ⟨fun _ => rfl, fun hcon => by rw [htru] at hcon; cases hcon⟩
          · intro hcon
            rw [hA] at hcon
            exact absurd hcon (by simp)
        · refine ⟨⟨((e :: rest).filter
              (fun entry => !isHistoricalFile entry)).map some,
              driverPage⟩, ?_, rfl, ?_, ?_⟩
          · rw [key, if_neg hf]
          · intro _
            refine ⟨?_, ?_, ?_⟩
            · intro s hs
              obtain ⟨x, hx, hxs⟩ := List.mem_map.mp hs
              obtain ⟨_, hpred⟩ := List.mem_filter.mp hx
              have hxseq : x = s := by
                injection hxs
              rw [← hxseq]
              simpa using hpred
            · intro s hs hnh
              exact List.mem_map_of_mem some
                (List.mem_filter.mpr ⟨hs, by rw [hnh]; rfl⟩)
            · intro _ hempty
              have hflen : (((e :: rest).filter
                  (fun entry => !isHistoricalFile entry)).length == 0) = true := by
                rw [hempty]
                rfl
              have htru : jsTruthy driverPage = false := by
                rw [Bool.not_eq_true] at hf
                rcases Bool.and_eq_false_iff.mp hf with h | h
                · rw [hflen] at h
                  cases h
                · exact h
              constructor
              · intro hcon
                rw [htru] at hcon
                cases hcon
              · intro _
                rw [hempty]
                rfl
          · intro hcon
            rw [hA] at hcon
            exact absurd hcon (by simp)
    · rw [Bool.not_eq_true] at hA
      refine ⟨⟨driverEntries.map some, driverPage⟩, ?_, rfl, ?_, fun _ => rfl⟩
      · unfold handleListFiles
        rw [hauth, hA]
        rfl
      · intro hcon
        rw [hA] at hcon
        cases hcon

/-- Closed instance of the amended C8 theorem: an archival-scoped listing of
a page with one historical and one plain entry returns a page that keeps
the plain entry and no historical one. -/
theorem handleListFiles_correct_witness :
    ∃ r, handleListFiles (fun _ => 0) 0 true none "1ListTest"
        ⟨[], [], [], [], [], ["foo"]⟩ [".history.1.abc.foo", "foo"] none =
      Except.ok r ∧ r.page = none ∧
      (∀ s, some s ∈ r.entries → isHistoricalFile s = false) ∧
      some "foo" ∈ r.entries := by
  obtain ⟨r, h1, h2, h3, _⟩ := (handleListFiles_correct (fun _ => 0) 0 true
    none "1ListTest" ⟨[], [], [], [], [], ["foo"]⟩
    ⟨[], [], [], [], [], ["foo"]⟩ [".history.1.abc.foo", "foo"] none rfl).2
  exact ⟨r, h1, h2, (h3 rfl).1, (h3 rfl).2.1 "foo" (by decide) (by decide)⟩

end Registrar
